import Mathlib

/-!
# Verification of `fetch_coordinates.py` (gmaps-coordinate-extractor)

Shallow embedding of the coordinate-extraction script.  Strings are
modelled as `List Char`; Python regular-expression searches are modelled
by explicit left-to-right scanning functions whose greedy number parsing
coincides with the source patterns (the patterns involved never need
backtracking because every repetition is followed by a character disjoint
from the repeated class); Python `float` is modelled exactly, as an
integer numerator over a power-of-ten denominator extended with
`nan`/`inf` markers (the range comparisons the validator performs are
exact at the integer constants involved, so double rounding is
immaterial); browser navigation is modelled
by an oracle `Nat → NavResult` consumed in order, and the observable
behaviour (navigations, sleeps, store writes, file saves) is recorded in
an event trace.
-/

/-- Does `pat` occur as a prefix of `s`?  (Used to model Python's
substring operator `in` and literal matching inside regexes.) -/
def listStartsWith : List Char → List Char → Bool
  | [], _ => true
  | _ :: _, [] => false
  | p :: ps, c :: cs => (c == p) && listStartsWith ps cs

/-- Python's substring test `pat in s`. -/
def containsSub (pat : List Char) : List Char → Bool
  | [] => listStartsWith pat []
  | c :: rest => listStartsWith pat (c :: rest) || containsSub pat rest

/-- Strip the literal `lit` from the front of `s`; `none` when `s` does
not start with `lit`. -/
def dropLit : List Char → List Char → Option (List Char)
  | [], s => some s
  | _ :: _, [] => none
  | p :: ps, c :: cs => if c = p then dropLit ps cs else none

/-- Optional leading minus sign of the number pattern `-?\d+\.?\d*`. -/
def parseSign (s : List Char) : List Char × List Char :=
  match s with
  | c :: rest => if c = '-' then (['-'], rest) else ([], s)
  | [] => ([], [])

/-- Optional decimal point of the number pattern. -/
def parseDot (s : List Char) : List Char × List Char :=
  match s with
  | c :: rest => if c = '.' then (['.'], rest) else ([], s)
  | [] => ([], [])

/-- Greedy match of the number pattern `-?\d+\.?\d*` at the start of `s`:
returns the matched token and the remaining input.  Greedy matching is
exact here: each repetition of the pattern is followed by a character
outside the repeated class, so the regex engine never backtracks. -/
def parseNumber (s : List Char) : Option (List Char × List Char) :=
  let sg := parseSign s
  let d1 := sg.2.takeWhile Char.isDigit
  let r1 := sg.2.dropWhile Char.isDigit
  if d1.isEmpty then none
  else
    let dt := parseDot r1
    let d2 := dt.2.takeWhile Char.isDigit
    let r2 := dt.2.dropWhile Char.isDigit
    some (sg.1 ++ d1 ++ dt.1 ++ d2, r2)

def lit3d : List Char := ['!', '3', 'd']
def lit4d : List Char := ['!', '4', 'd']
def lit2d : List Char := ['!', '2', 'd']

/-- Pattern 1 of `extract_coordinates_from_url`, anchored at the start of
`s`: `!3d(-?\d+\.?\d*)!4d(-?\d+\.?\d*)`. -/
def matchCombinedAt (s : List Char) : Option (List Char × List Char) :=
  (dropLit lit3d s).bind fun s1 =>
  (parseNumber s1).bind fun p1 =>
  (dropLit lit4d p1.2).bind fun s2 =>
  (parseNumber s2).bind fun p2 =>
  some (p1.1, p2.1)

/-- Pattern 2 pieces, anchored at the start of `s`: `tag(-?\d+\.?\d*)`
with `tag` one of `!3d` / `!2d`. -/
def matchTagAt (tag : List Char) (s : List Char) : Option (List Char) :=
  (dropLit tag s).bind fun s1 => (parseNumber s1).bind fun p => some p.1

/-- The `(-?\d+\.?\d*),(-?\d+\.?\d*)` tail shared by patterns 3 and 4. -/
def matchPairAfter (s : List Char) : Option (List Char × List Char) :=
  (parseNumber s).bind fun p1 =>
  match p1.2 with
  | c :: rest => if c = ',' then (parseNumber rest).bind fun p2 => some (p1.1, p2.1) else none
  | [] => none

/-- Pattern 3, anchored at the start of `s`:
`[?&](?:q|ll)=(-?\d+\.?\d*),(-?\d+\.?\d*)`.  The alternation never needs
backtracking (`q` and `ll` start with different characters). -/
def matchQueryAt (s : List Char) : Option (List Char × List Char) :=
  match s with
  | c :: rest =>
    if c = '?' ∨ c = '&' then
      match dropLit ['q', '='] rest with
      | some s1 => matchPairAfter s1
      | none =>
        match dropLit ['l', 'l', '='] rest with
        | some s1 => matchPairAfter s1
        | none => none
    else none
  | [] => none

/-- Pattern 4, anchored at the start of `s`: `@(-?\d+\.?\d*),(-?\d+\.?\d*)`. -/
def matchViewportAt (s : List Char) : Option (List Char × List Char) :=
  match s with
  | c :: rest => if c = '@' then matchPairAfter rest else none
  | [] => none

/-- Python's `re.search`: try the anchored matcher at every position of
the input, left to right, and return the first success. -/
def reSearch {α : Type} (tryAt : List Char → Option α) : List Char → Option α
  | [] => tryAt []
  | c :: rest =>
    match tryAt (c :: rest) with
    | some r => some r
    | none => reSearch tryAt rest

/-- `tryAt` fails at each of the first `k` positions of `s`. -/
def noMatchBefore {α : Type} (tryAt : List Char → Option α) : Nat → List Char → Bool
  | 0, _ => true
  | _ + 1, [] => true
  | k + 1, c :: rest => (tryAt (c :: rest)).isNone && noMatchBefore tryAt k rest

/-- Extraction source tag of `extract_coordinates_from_url`. -/
inductive Source where
  | pin
  | query
  | viewport
deriving DecidableEq, Repr

/-- `extract_coordinates_from_url(url)`: the four regex pattern families
of the source, tried in strict priority order, first match winning.
`none` models the Python return value `(None, None, None)`. -/
def extract_coordinates_from_url (url : List Char) :
    Option (List Char × List Char × Source) :=
  match reSearch matchCombinedAt url with
  | some (la, lo) => some (la, lo, Source.pin)
  | none =>
    match reSearch (matchTagAt lit3d) url, reSearch (matchTagAt lit2d) url with
    | some la, some lo => some (la, lo, Source.pin)
    | _, _ =>
      match reSearch matchQueryAt url with
      | some (la, lo) => some (la, lo, Source.query)
      | none =>
        match reSearch matchViewportAt url with
        | some (la, lo) => some (la, lo, Source.viewport)
        | none => none

/-- Model of a CPython `float` value as far as the validator observes it:
a finite value held exactly as an integer numerator over a positive
power-of-ten denominator (kept unnormalized so that every comparison is
pure integer arithmetic), a NaN, or a signed infinity. -/
inductive PyFloat where
  | num (n : Int) (d : Nat)
  | nan
  | inf (neg : Bool)
deriving DecidableEq, Repr

/-- `x < q` for a Python float `x` and integer constant `q`
(NaN compares false with everything): `n / d < q ↔ n < q * d`
for the positive denominators this model produces. -/
def PyFloat.ltQ : PyFloat → Int → Bool
  | .num n d, q => decide (n < q * (d : Int))
  | .nan, _ => false
  | .inf neg, _ => neg

/-- `x > q` for a Python float `x` and integer constant `q`. -/
def PyFloat.gtQ : PyFloat → Int → Bool
  | .num n d, q => decide (q * (d : Int) < n)
  | .nan, _ => false
  | .inf neg, _ => !neg

/-- `x == 0` for a Python float `x`. -/
def PyFloat.eqZero : PyFloat → Bool
  | .num n _ => decide (n = 0)
  | .nan => false
  | .inf _ => false

/-- Value of a digit run read in base 10. -/
def digitsVal (ds : List Char) : Nat :=
  ds.foldl (fun a c => 10 * a + (c.toNat - 48)) 0

/-- Assemble the exact value of a parsed decimal literal
`[-] d1 [. d2] [e [-] exp]` as numerator and power-of-ten denominator. -/
def mkQ (neg : Bool) (d1 d2 : List Char) (e : Nat) (eneg : Bool) : PyFloat :=
  let base : Nat := digitsVal (d1 ++ d2)
  let n : Nat := if eneg then base else base * 10 ^ e
  let d : Nat := if eneg then 10 ^ d2.length * 10 ^ e else 10 ^ d2.length
  .num (if neg then -(n : Int) else (n : Int)) d

/-- Model of CPython `float(s)` on strings: optional surrounding
whitespace, optional sign, then `nan` / `inf` / `infinity`
(case-insensitive) or a decimal literal `\d*(\.\d*)?` with at least one
digit and an optional exponent.  (Digit-group underscores are not
modelled; no input considered here contains them.)  Exact rational
semantics: the double-rounding of CPython is immaterial to the
comparisons the validator performs at the constants ±90, ±180 and 0. -/
def pyFloat? (s0 : List Char) : Option PyFloat :=
  let s1 := (s0.dropWhile Char.isWhitespace).reverse.dropWhile Char.isWhitespace |>.reverse
  let sg := match s1 with
    | c :: r => if c = '-' then (true, r) else if c = '+' then (false, r) else (false, s1)
    | [] => (false, s1)
  let low := sg.2.map Char.toLower
  if low = "nan".toList then some PyFloat.nan
  else if low = "inf".toList ∨ low = "infinity".toList then some (PyFloat.inf sg.1)
  else
    let d1 := sg.2.takeWhile Char.isDigit
    let r1 := sg.2.dropWhile Char.isDigit
    let frac := match r1 with
      | c :: rr =>
        if c = '.' then (rr.takeWhile Char.isDigit, rr.dropWhile Char.isDigit)
        else (([] : List Char), r1)
      | [] => (([] : List Char), r1)
    if d1.isEmpty ∧ frac.1.isEmpty then none
    else
      match frac.2 with
      | [] => some (mkQ sg.1 d1 frac.1 0 false)
      | e :: r3 =>
        if e = 'e' ∨ e = 'E' then
          let esg := match r3 with
            | c :: rr => if c = '-' then (true, rr) else if c = '+' then (false, rr) else (false, r3)
            | [] => (false, r3)
          let ed := esg.2.takeWhile Char.isDigit
          let r5 := esg.2.dropWhile Char.isDigit
          if ed.isEmpty ∨ ¬r5.isEmpty then none
          else some (mkQ sg.1 d1 frac.1 (digitsVal ed) esg.1)
        else none

/-- The warning message `f"Latitude {lat} out of range [-90, 90]"`. -/
def latRangeMsg (lat : List Char) : List Char :=
  "Latitude ".toList ++ lat ++ " out of range [-90, 90]".toList

/-- The warning message `f"Longitude {long} out of range [-180, 180]"`. -/
def longRangeMsg (long : List Char) : List Char :=
  "Longitude ".toList ++ long ++ " out of range [-180, 180]".toList

/-- The warning message for the (0,0) sentinel. -/
def zeroMsg : List Char :=
  "Coordinates are (0,0) - likely invalid".toList

/-- The warning message emitted from the `except` branch. -/
def fmtMsg (lat long : List Char) : List Char :=
  "Invalid coordinate format: lat=".toList ++ lat ++ ", long=".toList ++ long

/-- `validate_coordinates(lat, long)`: returns `(is_valid, warnings)`.
`is_valid` starts true and is set false by each failed check, so it is
true exactly when the warning list is empty; the checks are the two range
checks and the (0,0) sentinel, with a parse failure of either string
short-circuiting to the format warning. -/
def validate_coordinates (lat long : List Char) : Bool × List (List Char) :=
  match pyFloat? lat, pyFloat? long with
  | some lf, some gf =>
    let w1 := if lf.ltQ (-90) || lf.gtQ 90 then [latRangeMsg lat] else []
    let w2 := if gf.ltQ (-180) || gf.gtQ 180 then [longRangeMsg long] else []
    let w3 := if lf.eqZero && gf.eqZero then [zeroMsg] else []
    let ws := w1 ++ w2 ++ w3
    (ws.isEmpty, ws)
  | _, _ => (false, [fmtMsg lat long])

/-- Outcome of one browser navigation (`driver.get` + reading
`driver.current_url`): either the final URL after redirects, or a raised
navigation/transport exception. -/
inductive NavResult where
  | ok (finalUrl : List Char)
  | err
deriving Repr

/-- The `latlong` sub-dictionary of an entity record; `none` fields model
absent keys. -/
structure LatLong where
  lat : Option (List Char)
  long : Option (List Char)
deriving DecidableEq, Repr

/-- One entity record of the input JSON store; `none` fields model absent
keys (`item.get` supplies the defaults the source uses). -/
structure EntityRec where
  name : Option (List Char)
  gmaps : Option (List Char)
  latlong : Option LatLong
deriving DecidableEq, Repr

/-- Observable events of a run: navigations, the fixed settle sleeps,
the backoff sleeps between retries, in-memory store updates, and
`save_to_json` calls (each carrying the store written). -/
inductive Ev where
  | navigate (url : List Char)
  | settle (secs : Nat)
  | backoff (secs : Nat)
  | updateStore (store : List (List Char × EntityRec))
  | save (store : List (List Char × EntityRec))
deriving DecidableEq, Repr


/-- The soft-block marker `"google.com/sorry"` checked against the final
URL in the direct-URL step. -/
def blockMarker : List Char := "google.com/sorry".toList

/-- `if gmaps_url.endswith('.'): gmaps_url = gmaps_url[:-1]` — strip one
trailing period. -/
def stripTrailingDot (u : List Char) : List Char :=
  if u.getLast? = some '.' then u.dropLast else u

/-- Hex digit (uppercase) used by percent-encoding. -/
def hexDigit (n : Nat) : Char :=
  if n < 10 then Char.ofNat (48 + n) else Char.ofNat (55 + n)

/-- UTF-8 bytes of one code point. -/
def utf8Bytes (c : Char) : List Nat :=
  let n := c.toNat
  if n < 0x80 then [n]
  else if n < 0x800 then [0xC0 + n / 64, 0x80 + n % 64]
  else if n < 0x10000 then [0xE0 + n / 4096, 0x80 + (n / 64) % 64, 0x80 + n % 64]
  else [0xF0 + n / 0x40000, 0x80 + (n / 4096) % 64, 0x80 + (n / 64) % 64, 0x80 + n % 64]

/-- Model of `urllib.parse.quote` (default `safe='/'`): unreserved
characters and `/` pass through, everything else is percent-encoded from
its UTF-8 bytes. -/
def quote (s : List Char) : List Char :=
  s.flatMap fun c =>
    if c.isAlphanum ∨ c = '_' ∨ c = '.' ∨ c = '-' ∨ c = '~' ∨ c = '/' then [c]
    else (utf8Bytes c).flatMap fun b => ['%', hexDigit (b / 16), hexDigit (b % 16)]

/-- The search query of strategy 2: the entity name, with the context
appended after a space when a context is given, is non-empty and is not
already a substring of the name (`if context and context not in name`). -/
def searchQueryOf (name : List Char) (context : Option (List Char)) : List Char :=
  match context with
  | some ctx => if ¬ctx.isEmpty ∧ ¬containsSub ctx name then name ++ ' ' :: ctx else name
  | none => name

/-- `f"https://www.google.com/maps/search/{query}"` over the
percent-encoded query. -/
def searchUrlOf (name : List Char) (context : Option (List Char)) : List Char :=
  "https://www.google.com/maps/search/".toList ++ quote (searchQueryOf name context)

/-- The retry loop of strategy 1 (direct URL visit), lines 123–151 of the
source.  Arguments after the oracle and url: the initial retry delay, the
oracle cursor, the remaining attempts (`max_retries - attempt`), and the
current 0-based attempt number.  Returns the extraction result, the new
oracle cursor, and the emitted events.  A successful navigation always
ends the loop (soft-block and no-match both `break`); only an exception
retries, with a backoff sleep of `retry_delay * 2 ** attempt` unless the
attempt was the last. -/
def urlAttemptLoop (nav : Nat → NavResult) (url : List Char) (d : Nat) :
    Nat → Nat → Nat → Option (List Char × List Char × Source) × Nat × List Ev
  | idx, 0, _ => (none, idx, [])
  | idx, r + 1, a =>
    match nav idx with
    | .ok finalUrl =>
      if containsSub blockMarker finalUrl then
        (none, idx + 1, [.navigate url, .settle 4])
      else
        match extract_coordinates_from_url finalUrl with
        | some res => (some res, idx + 1, [.navigate url, .settle 4])
        | none => (none, idx + 1, [.navigate url, .settle 4])
    | .err =>
      if r = 0 then (none, idx + 1, [.navigate url])
      else
        let o := urlAttemptLoop nav url d (idx + 1) r (a + 1)
        (o.1, o.2.1, .navigate url :: .backoff (d * 2 ^ a) :: o.2.2)

/-- The retry loop of strategy 2 (search fallback), lines 157–186 of the
source: like the direct-URL loop but with a 5-second settle sleep and no
soft-block check. -/
def searchAttemptLoop (nav : Nat → NavResult) (url : List Char) (d : Nat) :
    Nat → Nat → Nat → Option (List Char × List Char × Source) × Nat × List Ev
  | idx, 0, _ => (none, idx, [])
  | idx, r + 1, a =>
    match nav idx with
    | .ok finalUrl =>
      match extract_coordinates_from_url finalUrl with
      | some res => (some res, idx + 1, [.navigate url, .settle 5])
      | none => (none, idx + 1, [.navigate url, .settle 5])
    | .err =>
      if r = 0 then (none, idx + 1, [.navigate url])
      else
        let o := searchAttemptLoop nav url d (idx + 1) r (a + 1)
        (o.1, o.2.1, .navigate url :: .backoff (d * 2 ^ a) :: o.2.2)

/-- `get_coordinates(driver, gmaps_url, name, context, max_retries,
retry_delay)`: strategy 1 (direct URL, entered only when the URL is
non-empty and longer than 5 characters, after stripping one trailing
period) followed, when it produced no coordinates, by strategy 2 (search
by name). -/
def get_coordinates (nav : Nat → NavResult) (idx : Nat) (gmaps_url name : List Char)
    (context : Option (List Char)) (max_retries retry_delay : Nat) :
    Option (List Char × List Char × Source) × Nat × List Ev :=
  let u := if gmaps_url ≠ [] ∧ 5 < gmaps_url.length then
      urlAttemptLoop nav (stripTrailingDot gmaps_url) retry_delay idx max_retries 0
    else (none, idx, ([] : List Ev))
  match u with
  | (some res, idx1, tr1) => (some res, idx1, tr1)
  | (none, idx1, tr1) =>
    let s := searchAttemptLoop nav (searchUrlOf name context) retry_delay idx1 max_retries 0
    (s.1, s.2.1, tr1 ++ s.2.2)

/-- The counters accumulated by `main`. -/
structure Counters where
  updated : Nat
  skipped : Nat
  failed : Nat
  validationWarnings : Nat
deriving DecidableEq, Repr

/-- The only uncaught exception the batch body can raise in this model:
indexing a missing dictionary key. -/
inductive PyError where
  | keyError (key : List Char)
deriving DecidableEq, Repr

/-- Default entity name: `item.get('name', 'Unknown')`. -/
def unknownName : List Char := "Unknown".toList

/-- The dictionary key `'latlong'`. -/
def latlongKey : List Char := "latlong".toList

/-- `latlong.get('lat', '')` after `latlong = item.get('latlong', {})`. -/
def currentLat (item : EntityRec) : List Char :=
  ((item.latlong.getD ⟨none, none⟩).lat).getD []

/-- `latlong.get('long', '')` after `latlong = item.get('latlong', {})`. -/
def currentLong (item : EntityRec) : List Char :=
  ((item.latlong.getD ⟨none, none⟩).long).getD []

/-- Whether `main` attempts resolution for an entity: always under
`--force`, otherwise when the current latitude or longitude is falsy. -/
def shouldProcess (force : Bool) (item : EntityRec) : Bool :=
  force || (currentLat item).isEmpty || (currentLong item).isEmpty

/-- Result of processing one entity in the batch loop. -/
structure StepOut where
  item : EntityRec
  counters : Counters
  idx : Nat
  events : List Ev
  didUpdate : Bool
  error : Option PyError
deriving DecidableEq, Repr

/-- The body of the `for key, item in data.items()` loop of `main`
for one entity (progress-bar and logging calls are not modelled).
A `KeyError` escapes before the record is mutated, after the
validation-warning counter has already been bumped. -/
def processEntity (force : Bool) (context : Option (List Char)) (mr d : Nat)
    (nav : Nat → NavResult) (idx : Nat) (item : EntityRec) (c : Counters) : StepOut :=
  let name := item.name.getD unknownName
  let gmaps_url := item.gmaps.getD []
  if shouldProcess force item then
    if gmaps_url.isEmpty && name.isEmpty then
      ⟨item, { c with skipped := c.skipped + 1 }, idx, [], false, none⟩
    else
      let g := get_coordinates nav idx gmaps_url name context mr d
      match g.1 with
      | some (new_lat, new_long, _) =>
        if new_lat.isEmpty || new_long.isEmpty then
          ⟨item, { c with failed := c.failed + 1 }, g.2.1, g.2.2, false, none⟩
        else
          let vw := validate_coordinates new_lat new_long
          let c1 := if ¬vw.2.isEmpty then
              { c with validationWarnings := c.validationWarnings + 1 }
            else c
          if new_lat ≠ currentLat item ∨ new_long ≠ currentLong item then
            match item.latlong with
            | none => ⟨item, c1, g.2.1, g.2.2, false, some (.keyError latlongKey)⟩
            | some ll =>
              let item1 : EntityRec :=
                { item with latlong := some { ll with lat := some new_lat, long := some new_long } }
              ⟨item1, { c1 with updated := c1.updated + 1 }, g.2.1, g.2.2, true, none⟩
          else ⟨item, c1, g.2.1, g.2.2, false, none⟩
      | none =>
        ⟨item, { c with failed := c.failed + 1 }, g.2.1, g.2.2, false, none⟩
  else ⟨item, c, idx, [], false, none⟩

/-- Result of the whole batch. -/
structure BatchOut where
  store : List (List Char × EntityRec)
  counters : Counters
  events : List Ev
  error : Option PyError
deriving DecidableEq, Repr

/-- The batch loop of `main` over the remaining entities (`done` holds the
already-processed prefix in reverse).  After each in-place record update an
`updateStore` event is emitted with the whole store; every fifth update is
followed immediately by a `save` of that store.  An uncaught `KeyError`
aborts the loop, leaving the remaining entities unprocessed. -/
def runLoop (force : Bool) (context : Option (List Char)) (mr d : Nat)
    (nav : Nat → NavResult) :
    List (List Char × EntityRec) → List (List Char × EntityRec) → Nat → Counters → BatchOut
  | [], done, _, c => ⟨done.reverse, c, [], none⟩
  | (key, item) :: rest, done, idx, c =>
    let so := processEntity force context mr d nav idx item c
    let store1 := done.reverse ++ (key, so.item) :: rest
    match so.error with
    | some e => ⟨store1, so.counters, so.events, some e⟩
    | none =>
      let evs := so.events ++
        (if so.didUpdate then
          Ev.updateStore store1 ::
            (if so.counters.updated % 5 = 0 then [Ev.save store1] else [])
         else [])
      let out := runLoop force context mr d nav rest ((key, so.item) :: done) so.idx so.counters
      ⟨out.store, out.counters, evs ++ out.events, out.error⟩

/-- One whole run of `main`'s batch: the loop from zeroed counters,
followed by the final `save_to_json` of the `finally` block, which runs
on every exit path, a propagating `KeyError` included. -/
def runBatch (force : Bool) (context : Option (List Char)) (mr d : Nat)
    (nav : Nat → NavResult) (data : List (List Char × EntityRec)) : BatchOut :=
  let o := runLoop force context mr d nav data [] 0 ⟨0, 0, 0, 0⟩
  ⟨o.store, o.counters, o.events ++ [Ev.save o.store], o.error⟩

/-- Is the next event a `save` of exactly the store `st`? -/
def headIsSave (st : List (List Char × EntityRec)) : List Ev → Bool
  | Ev.save st2 :: _ => decide (st2 = st)
  | _ => false

/-- Trace property: every store update that brings the number of updates
to a multiple of 5 is followed immediately by a `save` of that same
store. -/
def savesEvery5 : Nat → List Ev → Bool
  | _, [] => true
  | n, Ev.updateStore st :: rest =>
    (if (n + 1) % 5 = 0 then headIsSave st rest else true) && savesEvery5 (n + 1) rest
  | n, _ :: rest => savesEvery5 n rest

/-- Events that only navigate or sleep (no store write, no save). -/
def navOnly : List Ev → Bool
  | [] => true
  | Ev.navigate _ :: r => navOnly r
  | Ev.settle _ :: r => navOnly r
  | Ev.backoff _ :: r => navOnly r
  | _ => false

/-- The event trace of a retry loop all of whose navigations raise:
one navigation per attempt, with an exponential backoff sleep of
`d * 2 ^ attempt` after every attempt but the last. -/
def errTrace (url : List Char) (d : Nat) : Nat → Nat → List Ev
  | 0, _ => []
  | 1, _ => [.navigate url]
  | r + 2, a => .navigate url :: .backoff (d * 2 ^ a) :: errTrace url d (r + 1) (a + 1)

/-- Structural characterization of a full match of the number pattern
`-?\d+\.?\d*`: optional sign, a non-empty digit run, an optional dot,
and a (possibly empty) digit run allowed only after a dot. -/
def NumShape (sg d1 dt d2 : List Char) : Prop :=
  (sg = [] ∨ sg = ['-']) ∧ d1 ≠ [] ∧ (∀ c ∈ d1, c.isDigit = true) ∧
    ((dt = [] ∧ d2 = []) ∨ (dt = ['.'] ∧ ∀ c ∈ d2, c.isDigit = true))

/-- The characters after the token `t` cannot extend a greedy match of
the number pattern: the next character is not a digit, and is not a dot
unless `t` already contains one. -/
def stopsNum (t rest : List Char) : Bool :=
  match rest with
  | [] => true
  | c :: _ => !c.isDigit && (t.contains '.' || !(c == '.'))

/-! ## Lemmas about the regex model -/

theorem takeWhile_append_stop (p : Char → Bool) :
    ∀ (d rest : List Char), (∀ c ∈ d, p c = true) →
      (∀ c, rest.head? = some c → p c = false) →
      (d ++ rest).takeWhile p = d ∧ (d ++ rest).dropWhile p = rest
  | [], [], _, _ => by simp
  | [], c :: r, _, hr => by
    have hc := hr c rfl
    simp [List.takeWhile, List.dropWhile, hc]
  | a :: d, rest, hd, hr => by
    have ha : p a = true := hd a (List.mem_cons_self a d)
    have ih := takeWhile_append_stop p d rest (fun c hc => hd c (List.mem_cons_of_mem a hc)) hr
    simp [List.takeWhile_cons, List.dropWhile_cons, ha, ih.1, ih.2]

theorem parseSign_spec (s : List Char) :
    s = (parseSign s).1 ++ (parseSign s).2 ∧
      ((parseSign s).1 = [] ∨ (parseSign s).1 = ['-']) := by
  match s with
  | [] => simp [parseSign]
  | c :: rest =>
    by_cases hc : c = '-'
    · subst hc; simp [parseSign]
    · simp [parseSign, hc]

theorem parseDot_spec (s : List Char) :
    s = (parseDot s).1 ++ (parseDot s).2 ∧
      ((parseDot s).1 = [] ∧ (parseDot s).2 = s ∨ (parseDot s).1 = ['.']) := by
  match s with
  | [] => simp [parseDot]
  | c :: rest =>
    by_cases hc : c = '.'
    · subst hc; simp [parseDot]
    · simp [parseDot, hc]

theorem head_dropWhile_not {p : Char → Bool} :
    ∀ (l : List Char) (c : Char), (l.dropWhile p).head? = some c → p c = false
  | [], c => by simp
  | a :: l, c => by
    by_cases ha : p a = true
    · simpa [List.dropWhile, ha] using head_dropWhile_not l c
    · simp only [Bool.not_eq_true] at ha
      simp [List.dropWhile, ha]
      rintro rfl
      exact ha

theorem parseNumber_eq (s : List Char)
    (hd1 : ¬((parseSign s).2.takeWhile Char.isDigit).isEmpty = true) :
    parseNumber s = some
      ((parseSign s).1 ++ (parseSign s).2.takeWhile Char.isDigit ++
         (parseDot ((parseSign s).2.dropWhile Char.isDigit)).1 ++
         ((parseDot ((parseSign s).2.dropWhile Char.isDigit)).2).takeWhile Char.isDigit,
       ((parseDot ((parseSign s).2.dropWhile Char.isDigit)).2).dropWhile Char.isDigit) := by
  simp [parseNumber, hd1]

theorem parseNumber_sound {s t r : List Char} (h : parseNumber s = some (t, r)) :
    s = t ++ r ∧ ∃ sg d1 dt d2, t = sg ++ d1 ++ dt ++ d2 ∧ NumShape sg d1 dt d2 := by
  by_cases hd1 : ((parseSign s).2.takeWhile Char.isDigit).isEmpty = true
  · simp [parseNumber, hd1] at h
  · rw [parseNumber_eq s hd1] at h
    injection h with hp
    injection hp with h1 h2
    subst h1
    subst h2
    obtain ⟨hs1, hsg⟩ := parseSign_spec s
    obtain ⟨hr1, hdt⟩ := parseDot_spec ((parseSign s).2.dropWhile Char.isDigit)
    constructor
    · simp only [List.append_assoc]
      rw [List.takeWhile_append_dropWhile, ← hr1, List.takeWhile_append_dropWhile, ← hs1]
    · refine ⟨(parseSign s).1, (parseSign s).2.takeWhile Char.isDigit,
        (parseDot ((parseSign s).2.dropWhile Char.isDigit)).1,
        ((parseDot ((parseSign s).2.dropWhile Char.isDigit)).2).takeWhile Char.isDigit,
        rfl, hsg, by simpa using hd1, fun c hc => List.mem_takeWhile_imp hc, ?_⟩
      rcases hdt with ⟨hdt1, hdt2⟩ | hdt1
      · left
        refine ⟨hdt1, ?_⟩
        rw [hdt2]
        rcases hh : ((parseSign s).2.dropWhile Char.isDigit) with _ | ⟨c, l⟩
        · simp
        · have hc : Char.isDigit c = false :=
            head_dropWhile_not (parseSign s).2 c (by rw [hh]; rfl)
          simp [List.takeWhile_cons, hc]
      · right
        exact ⟨hdt1, fun c hc => List.mem_takeWhile_imp hc⟩

theorem parseSign_nosign {s : List Char} (h : ∀ c, s.head? = some c → c.isDigit = true) :
    parseSign s = ([], s) := by
  match s with
  | [] => rfl
  | c :: rest =>
    have hc : c.isDigit = true := h c rfl
    have hne : c ≠ '-' := by
      rintro rfl
      simp at hc
    simp [parseSign, hne]

theorem parseNumber_append {sg d1 dt d2 : List Char} (rest : List Char) (h : NumShape sg d1 dt d2)
    (hstop : ∀ c, rest.head? = some c → c.isDigit = false ∧ (dt = ['.'] ∨ c ≠ '.')) :
    parseNumber (sg ++ d1 ++ dt ++ d2 ++ rest) = some (sg ++ d1 ++ dt ++ d2, rest) := by
  obtain ⟨hsg, hd1ne, hd1dig, hdt⟩ := h
  have hdthead : ∀ c, (dt ++ d2 ++ rest).head? = some c → Char.isDigit c = false := by
    rcases hdt with ⟨rfl, rfl⟩ | ⟨rfl, _⟩
    · intro c hc
      exact (hstop c (by simpa using hc)).1
    · intro c hc
      simp at hc
      rw [← hc]
      decide
  have hsign : parseSign (sg ++ d1 ++ dt ++ d2 ++ rest) = (sg, d1 ++ dt ++ d2 ++ rest) := by
    rcases hsg with rfl | rfl
    · simp only [List.nil_append]
      apply parseSign_nosign
      intro c hc
      rcases d1 with _ | ⟨a, d⟩
      · exact absurd rfl hd1ne
      · simp at hc
        rw [← hc]
        exact hd1dig a (List.mem_cons_self a d)
    · simp [parseSign]
  have htw := takeWhile_append_stop Char.isDigit d1
      (dt ++ d2 ++ rest) hd1dig hdthead
  have hne : d1.isEmpty = false := by
    cases d1 with
    | nil => exact absurd rfl hd1ne
    | cons a l => rfl
  rcases hdt with ⟨rfl, rfl⟩ | ⟨rfl, hd2dig⟩
  · -- no dot, no fractional digits
    have hdot : parseDot rest = ([], rest) := by
      match rest with
      | [] => rfl
      | c :: r =>
        have := hstop c rfl
        have hcne : c ≠ '.' := by
          rcases this.2 with h | h
          · exact absurd h (by simp)
          · exact h
        simp [parseDot, hcne]
    have htw2 := takeWhile_append_stop Char.isDigit ([] : List Char)
        rest (by simp) (fun c hc => (hstop c hc).1)
    simp only [List.append_assoc, List.singleton_append, List.cons_append,
      List.append_nil, List.nil_append] at hsign htw htw2 ⊢
    simp [parseNumber, hsign, htw.1, htw.2, hdot, htw2.1, htw2.2, hne]
  · -- a dot followed by (possibly zero) digits
    have htw2 := takeWhile_append_stop Char.isDigit d2
        rest hd2dig (fun c hc => (hstop c hc).1)
    simp only [List.append_assoc, List.singleton_append, List.cons_append,
      List.append_nil, List.nil_append] at hsign htw htw2 ⊢
    simp [parseNumber, hsign, htw.1, htw.2, htw2.1, htw2.2, hne, parseDot]

theorem parseNumber_token {s t r : List Char} (h : parseNumber s = some (t, r)) :
    parseNumber t = some (t, []) ∧ t ≠ [] := by
  obtain ⟨-, sg, d1, dt, d2, rfl, hshape⟩ := parseNumber_sound h
  constructor
  · have := parseNumber_append [] hshape (by simp)
    simpa using this
  · obtain ⟨hsg, hd1ne, -, -⟩ := hshape
    intro hnil
    rcases List.append_eq_nil.mp (List.append_eq_nil.mp (List.append_eq_nil.mp hnil).1).1
      with ⟨-, h1⟩
    exact hd1ne h1

theorem dropLit_append : ∀ (lit rest : List Char), dropLit lit (lit ++ rest) = some rest
  | [], _ => rfl
  | c :: cs, rest => by simp [dropLit, dropLit_append cs rest]

theorem dropLit_sound : ∀ {lit s r : List Char}, dropLit lit s = some r → s = lit ++ r
  | [], s, r, h => by simpa [dropLit] using h
  | c :: cs, [], r, h => by simp [dropLit] at h
  | c :: cs, x :: xs, r, h => by
    by_cases hx : x = c
    · subst hx
      simp only [dropLit, if_pos rfl] at h
      simpa using dropLit_sound h
    · simp [dropLit, hx] at h

theorem reSearch_of_noMatchBefore {α : Type} (tryAt : List Char → Option α) :
    ∀ (k : Nat) (s : List Char) (r : α), noMatchBefore tryAt k s = true →
      tryAt (s.drop k) = some r → reSearch tryAt s = some r
  | 0, [], r, _, hm => by simpa [reSearch] using hm
  | 0, c :: rest, r, _, hm => by simp [reSearch, List.drop] at hm ⊢; simp [hm]
  | k + 1, [], r, _, hm => by simpa [reSearch] using hm
  | k + 1, c :: rest, r, hb, hm => by
    simp only [noMatchBefore, Bool.and_eq_true, Option.isNone_iff_eq_none] at hb
    have ih := reSearch_of_noMatchBefore tryAt k rest r hb.2 (by simpa using hm)
    simp [reSearch, hb.1, ih]

theorem reSearch_sound {α : Type} (tryAt : List Char → Option α) :
    ∀ (s : List Char) (r : α), reSearch tryAt s = some r → ∃ s1, tryAt s1 = some r
  | [], r, h => ⟨[], by simpa [reSearch] using h⟩
  | c :: rest, r, h => by
    rcases ht : tryAt (c :: rest) with _ | r1
    · simp only [reSearch, ht] at h
      exact reSearch_sound tryAt rest r h
    · simp only [reSearch, ht] at h
      exact ⟨c :: rest, by rw [ht, h]⟩

theorem stopsNum_spec {lo s : List Char} {sg d1 dt d2 : List Char}
    (hlo : lo = sg ++ d1 ++ dt ++ d2) (hshape : NumShape sg d1 dt d2)
    (hstop : stopsNum lo s = true) :
    ∀ c, s.head? = some c → c.isDigit = false ∧ (dt = ['.'] ∨ c ≠ '.') := by
  intro c hc
  match s with
  | [] => simp at hc
  | x :: xs =>
    simp only [List.head?] at hc
    injection hc with hc
    subst hc
    simp only [stopsNum, Bool.and_eq_true, Bool.not_eq_true', Bool.or_eq_true,
      beq_iff_eq] at hstop
    refine ⟨hstop.1, ?_⟩
    rcases hstop.2 with hdot | hne
    · -- the token contains a dot, so its dot part is non-empty
      left
      obtain ⟨hsg, -, hd1dig, hdt⟩ := hshape
      rcases hdt with ⟨rfl, rfl⟩ | ⟨rfl, -⟩
      · exfalso
        have hmem : '.' ∈ lo := by
          simpa using hdot
        rw [hlo] at hmem
        simp only [List.append_nil, List.mem_append] at hmem
        rcases hmem with hmem | hmem
        · rcases hsg with rfl | rfl
          · simp at hmem
          · simp at hmem
        · have := hd1dig _ hmem
          simp at this
      · rfl
    · right
      simpa using hne

/-- **C1**: for every URL containing a combined pin marker
`!3d<lat>!4d<long>` (with `<lat>`, `<long>` full matches of the number
pattern, the marker being the leftmost combined-pin match and `<long>`
maximal), `extract_coordinates_from_url` returns exactly that latitude
and longitude with source `pin`, whatever other separate-pin, `q=`/`ll=`
or `@` viewport patterns the prefix `p` and suffix `s` contain: pattern 1
is tried first and its first match wins. -/
theorem combined_pin_priority (p la lo s : List Char)
    (hla : parseNumber la = some (la, []))
    (hlo : parseNumber lo = some (lo, []))
    (hstop : stopsNum lo s = true)
    (hfirst : noMatchBefore matchCombinedAt p.length
        (p ++ lit3d ++ la ++ lit4d ++ lo ++ s) = true) :
    extract_coordinates_from_url (p ++ lit3d ++ la ++ lit4d ++ lo ++ s) =
      some (la, lo, Source.pin) := by
  have hplo : parseNumber (lo ++ s) = some (lo, s) := by
    obtain ⟨-, sg2, e1, e2, e3, hdec2, hsh2⟩ := parseNumber_sound hlo
    have hst := stopsNum_spec hdec2 hsh2 hstop
    have happ := parseNumber_append s hsh2 hst
    rw [hdec2]
    exact happ
  have hpla : parseNumber (la ++ (lit4d ++ (lo ++ s))) = some (la, lit4d ++ (lo ++ s)) := by
    obtain ⟨-, sg1, f1, f2, f3, hdec1, hsh1⟩ := parseNumber_sound hla
    have hst : ∀ c, (lit4d ++ (lo ++ s)).head? = some c →
        c.isDigit = false ∧ (f2 = ['.'] ∨ c ≠ '.') := by
      intro c hc
      simp [lit4d] at hc
      subst hc
      exact ⟨by decide, Or.inr (by decide)⟩
    have happ := parseNumber_append (lit4d ++ (lo ++ s)) hsh1 hst
    rw [hdec1]
    simpa [List.append_assoc] using happ
  have hmatch : matchCombinedAt (lit3d ++ (la ++ (lit4d ++ (lo ++ s)))) = some (la, lo) := by
    simp [matchCombinedAt, dropLit_append, hpla, hplo]
  have hurl : p ++ lit3d ++ la ++ lit4d ++ lo ++ s =
      p ++ (lit3d ++ (la ++ (lit4d ++ (lo ++ s)))) := by
    simp [List.append_assoc]
  have hdrop : (p ++ lit3d ++ la ++ lit4d ++ lo ++ s).drop p.length =
      lit3d ++ (la ++ (lit4d ++ (lo ++ s))) := by
    rw [hurl]
    exact List.drop_left p _
  have hsearch : reSearch matchCombinedAt (p ++ lit3d ++ la ++ lit4d ++ lo ++ s) =
      some (la, lo) :=
    reSearch_of_noMatchBefore matchCombinedAt p.length _ (la, lo) hfirst
      (by rw [hdrop]; exact hmatch)
  rw [hurl] at hsearch ⊢
  simp [extract_coordinates_from_url, hsearch]

/-- Concrete instance of **C1**: a URL that also contains a `q=` query
pair, a viewport pair and a separate `!2d` marker still yields the
combined-pin coordinates with source `pin`. -/
theorem combined_pin_priority_witness :
    extract_coordinates_from_url
        ("x?q=1,2@3,4!2d9".toList ++ lit3d ++ "10.5".toList ++ lit4d ++
          "-20.25".toList ++ "abc".toList) =
      some ("10.5".toList, "-20.25".toList, Source.pin) :=
  combined_pin_priority "x?q=1,2@3,4!2d9".toList "10.5".toList "-20.25".toList "abc".toList
    (by decide) (by decide) (by decide) (by decide)

theorem matchCombinedAt_shape {s la lo : List Char} (h : matchCombinedAt s = some (la, lo)) :
    (parseNumber la = some (la, []) ∧ la ≠ []) ∧
      (parseNumber lo = some (lo, []) ∧ lo ≠ []) := by
  simp only [matchCombinedAt, Option.bind_eq_some] at h
  obtain ⟨s1, -, p1, hp1, s2, -, p2, hp2, hfin⟩ := h
  injection hfin with hfin
  injection hfin with h1 h2
  subst h1
  subst h2
  exact ⟨parseNumber_token hp1, parseNumber_token hp2⟩

theorem matchTagAt_shape {tag s la : List Char} (h : matchTagAt tag s = some la) :
    parseNumber la = some (la, []) ∧ la ≠ [] := by
  simp only [matchTagAt, Option.bind_eq_some] at h
  obtain ⟨s1, -, p1, hp1, hfin⟩ := h
  injection hfin with hfin
  subst hfin
  exact parseNumber_token hp1

theorem matchPairAfter_shape {s la lo : List Char} (h : matchPairAfter s = some (la, lo)) :
    (parseNumber la = some (la, []) ∧ la ≠ []) ∧
      (parseNumber lo = some (lo, []) ∧ lo ≠ []) := by
  simp only [matchPairAfter, Option.bind_eq_some] at h
  obtain ⟨⟨t1, r1⟩, hp1, hrest⟩ := h
  rcases r1 with _ | ⟨c, rest⟩
  · simp at hrest
  · dsimp only at hrest
    by_cases hc : c = ','
    · rw [if_pos hc] at hrest
      simp only [Option.bind_eq_some] at hrest
      obtain ⟨p2, hp2, hfin⟩ := hrest
      injection hfin with hfin
      injection hfin with h1 h2
      subst h1
      subst h2
      exact ⟨parseNumber_token hp1, parseNumber_token hp2⟩
    · rw [if_neg hc] at hrest
      simp at hrest

theorem matchQueryAt_shape {s la lo : List Char} (h : matchQueryAt s = some (la, lo)) :
    (parseNumber la = some (la, []) ∧ la ≠ []) ∧
      (parseNumber lo = some (lo, []) ∧ lo ≠ []) := by
  rcases s with _ | ⟨c, rest⟩
  · simp [matchQueryAt] at h
  · simp only [matchQueryAt] at h
    by_cases hc : c = '?' ∨ c = '&'
    · rw [if_pos hc] at h
      rcases hq : dropLit ['q', '='] rest with _ | s1 <;> rw [hq] at h
      · rcases hl : dropLit ['l', 'l', '='] rest with _ | s1 <;> rw [hl] at h
        · simp at h
        · exact matchPairAfter_shape h
      · exact matchPairAfter_shape h
    · rw [if_neg hc] at h
      simp at h

theorem matchViewportAt_shape {s la lo : List Char} (h : matchViewportAt s = some (la, lo)) :
    (parseNumber la = some (la, []) ∧ la ≠ []) ∧
      (parseNumber lo = some (lo, []) ∧ lo ≠ []) := by
  rcases s with _ | ⟨c, rest⟩
  · simp [matchViewportAt] at h
  · simp only [matchViewportAt] at h
    by_cases hc : c = '@'
    · rw [if_pos hc] at h
      exact matchPairAfter_shape h
    · rw [if_neg hc] at h
      simp at h

/-- **C10**: whenever `extract_coordinates_from_url` returns a result at
all, both coordinate components are non-empty full matches of the decimal
number pattern `-?\\d+\\.?\\d*` and the source is one of `pin`, `query`,
`viewport`; a partial result (only one coordinate set) is impossible —
the model returns an `Option` of a complete triple, mirroring the fact
that every `return` in the source sets all three components. -/
theorem extract_result_shape (url la lo : List Char) (src : Source)
    (h : extract_coordinates_from_url url = some (la, lo, src)) :
    (parseNumber la = some (la, []) ∧ la ≠ []) ∧
      (parseNumber lo = some (lo, []) ∧ lo ≠ []) ∧
      (src = Source.pin ∨ src = Source.query ∨ src = Source.viewport) := by
  have hsrc : src = Source.pin ∨ src = Source.query ∨ src = Source.viewport := by
    cases src
    · exact Or.inl rfl
    · exact Or.inr (Or.inl rfl)
    · exact Or.inr (Or.inr rfl)
  unfold extract_coordinates_from_url at h
  rcases h1 : reSearch matchCombinedAt url with _ | ⟨la1, lo1⟩ <;> rw [h1] at h
  · rcases h2a : reSearch (matchTagAt lit3d) url with _ | la2 <;>
      rcases h2b : reSearch (matchTagAt lit2d) url with _ | lo2 <;>
        rw [h2a, h2b] at h
    case none.none | none.some | some.none =>
      rcases h3 : reSearch matchQueryAt url with _ | ⟨la3, lo3⟩ <;> rw [h3] at h <;>
        dsimp only at h
      · rcases h4 : reSearch matchViewportAt url with _ | ⟨la4, lo4⟩ <;> rw [h4] at h <;>
          dsimp only at h
        · simp at h
        · obtain ⟨rfl, rfl, -⟩ := Prod.mk.injEq .. ▸ Option.some.inj h
          obtain ⟨s1, hs1⟩ := reSearch_sound _ url _ h4
          obtain ⟨g1, g2⟩ := matchViewportAt_shape hs1
          exact ⟨g1, g2, hsrc⟩
      · obtain ⟨rfl, rfl, -⟩ := Prod.mk.injEq .. ▸ Option.some.inj h
        obtain ⟨s1, hs1⟩ := reSearch_sound _ url _ h3
        obtain ⟨g1, g2⟩ := matchQueryAt_shape hs1
        exact ⟨g1, g2, hsrc⟩
    case some.some =>
      dsimp only at h
      obtain ⟨rfl, rfl, -⟩ := Prod.mk.injEq .. ▸ Option.some.inj h
      obtain ⟨s1, hs1⟩ := reSearch_sound _ url _ h2a
      obtain ⟨s2, hs2⟩ := reSearch_sound _ url _ h2b
      exact ⟨matchTagAt_shape hs1, matchTagAt_shape hs2, hsrc⟩
  · dsimp only at h
    obtain ⟨rfl, rfl, -⟩ := Prod.mk.injEq .. ▸ Option.some.inj h
    obtain ⟨s1, hs1⟩ := reSearch_sound _ url _ h1
    obtain ⟨g1, g2⟩ := matchCombinedAt_shape hs1
    exact ⟨g1, g2, hsrc⟩

/-- Concrete instance of **C10**: on `"!3d12.!4d5x"` the extractor
returns the tokens `"12."` and `"5"`, both full number-pattern matches
(the pattern allows a trailing dot with no fractional digits). -/
theorem extract_result_shape_witness :
    (parseNumber "12.".toList = some ("12.".toList, []) ∧ "12.".toList ≠ []) ∧
      (parseNumber "5".toList = some ("5".toList, []) ∧ "5".toList ≠ []) ∧
      (Source.pin = Source.pin ∨ Source.pin = Source.query ∨ Source.pin = Source.viewport) :=
  extract_result_shape "!3d12.!4d5x".toList "12.".toList "5".toList Source.pin (by decide)

/-- **C3**: `validate_coordinates` reports invalid exactly when one of
the strings fails to parse as a float, the latitude compares below −90 or
above 90, the longitude compares below −180 or above 180, or both values
compare equal to 0; in particular it rejects latitude 95, rejects (0,0),
and accepts (40.7128, −74.0060). -/
theorem validate_invalid_iff :
    (∀ la lo, (validate_coordinates la lo).1 = false ↔
      (pyFloat? la = none ∨ pyFloat? lo = none ∨
       (∃ lf, pyFloat? la = some lf ∧ (lf.ltQ (-90) || lf.gtQ 90) = true) ∨
       (∃ gf, pyFloat? lo = some gf ∧ (gf.ltQ (-180) || gf.gtQ 180) = true) ∨
       (∃ lf gf, pyFloat? la = some lf ∧ pyFloat? lo = some gf ∧
         (lf.eqZero && gf.eqZero) = true))) ∧
    (validate_coordinates "95".toList "10.0".toList).1 = false ∧
    (validate_coordinates "0".toList "0".toList).1 = false ∧
    validate_coordinates "40.7128".toList "-74.0060".toList = (true, []) := by
  refine ⟨?_, by decide, by decide, by decide⟩
  intro la lo
  rcases hla : pyFloat? la with _ | lf
  · simp [validate_coordinates, hla]
  · rcases hlo : pyFloat? lo with _ | gf
    · simp [validate_coordinates, hla, hlo]
    · by_cases h1 : (lf.ltQ (-90) || lf.gtQ 90) = true
      · simp only [Bool.or_eq_true] at h1
        rcases h1 with h1a | h1a <;> simp [validate_coordinates, hla, hlo, h1a]
      · by_cases h2 : (gf.ltQ (-180) || gf.gtQ 180) = true
        · simp only [Bool.or_eq_true] at h2
          rcases h2 with h2a | h2a <;> simp [validate_coordinates, hla, hlo, h1, h2a]
        · by_cases h3 : (lf.eqZero && gf.eqZero) = true
          · simp only [Bool.and_eq_true] at h3
            obtain ⟨h3a, h3b⟩ := h3
            simp [validate_coordinates, hla, hlo, h1, h2, h3a, h3b]
          · simp [validate_coordinates, hla, hlo, h1, h2, h3]
            simp only [Bool.or_eq_true, not_or, Bool.not_eq_true] at h1 h2
            simp only [Bool.and_eq_true, not_and, Bool.not_eq_true] at h3
            exact ⟨h1, h2, h3⟩

/-- **C9**: `validate_coordinates('nan', 'nan')` returns valid with no
warnings: the strings parse as float NaN, every range comparison on NaN
is false, and NaN does not compare equal to 0, so no check fires. -/
theorem validate_nan_passes :
    validate_coordinates "nan".toList "nan".toList = (true, []) := by decide

/-- Refutation of **C2** as stated: an entity record with *no* `name`
key and no `gmaps` key is not skipped — `item.get('name', 'Unknown')`
substitutes the truthy default `'Unknown'`, so the driver attempts
resolution (here all navigations fail): the skipped counter stays 0 and
the failed counter becomes 1. -/
theorem missing_name_not_skipped :
    (processEntity false none 3 5 (fun _ => NavResult.err) 0
        ⟨none, none, some ⟨some [], some []⟩⟩ ⟨0, 0, 0, 0⟩).counters.skipped = 0 ∧
      (processEntity false none 3 5 (fun _ => NavResult.err) 0
        ⟨none, none, some ⟨some [], some []⟩⟩ ⟨0, 0, 0, 0⟩).counters.failed = 1 := by
  constructor
  · decide
  · decide

/-- **C2 (amended)**: an entity selected for processing whose `name`
field is present but empty and whose `gmaps` field is absent or empty is
skipped without attempting resolution: the skipped counter is bumped, the
record, the navigation cursor and the event trace are untouched.  (A
record lacking the `name` key entirely receives the default name
`'Unknown'` and is *not* skipped — see `missing_name_not_skipped`.) -/
theorem empty_name_and_url_skipped (force : Bool) (context : Option (List Char))
    (mr d : Nat) (nav : Nat → NavResult) (idx : Nat) (item : EntityRec) (c : Counters)
    (hname : item.name = some []) (hgm : item.gmaps.getD [] = [])
    (hsp : shouldProcess force item = true) :
    processEntity force context mr d nav idx item c =
      ⟨item, { c with skipped := c.skipped + 1 }, idx, [], false, none⟩ := by
  simp [processEntity, hname, hgm, hsp, unknownName]

/-- Concrete instance of the amended **C2**. -/
theorem empty_name_and_url_skipped_witness :
    processEntity false none 3 5 (fun _ => NavResult.err) 0
        ⟨some [], some [], some ⟨some [], some []⟩⟩ ⟨0, 0, 0, 0⟩ =
      ⟨⟨some [], some [], some ⟨some [], some []⟩⟩, ⟨0, 1, 0, 0⟩, 0, [], false, none⟩ :=
  empty_name_and_url_skipped false none 3 5 (fun _ => NavResult.err) 0
    ⟨some [], some [], some ⟨some [], some []⟩⟩ ⟨0, 0, 0, 0⟩ rfl rfl (by decide)

theorem validate_warnings_of_invalid {la lo : List Char}
    (h : (validate_coordinates la lo).1 = false) :
    (validate_coordinates la lo).2.isEmpty = false := by
  unfold validate_coordinates at h ⊢
  rcases hla : pyFloat? la with _ | lf
  · rcases hlo : pyFloat? lo with _ | gf <;> rfl
  · rcases hlo : pyFloat? lo with _ | gf
    · rfl
    · rw [hla, hlo] at h
      dsimp only at h ⊢
      exact h

/-- **C4**: a resolved coordinate pair that fails validation is still
written into the record and persisted: the record's `latlong` fields are
overwritten, the updated counter is bumped, the failure shows up only as
a validation-warning count, and no error is raised; for a single-entity
batch the whole run then persists the updated store with the final
`save_to_json`. -/
theorem validation_failure_does_not_block_update (force : Bool)
    (context : Option (List Char)) (mr d : Nat) (nav : Nat → NavResult)
    (key : List Char) (item : EntityRec) (ll : LatLong)
    (la lo : List Char) (src : Source) (idx1 : Nat) (tr : List Ev)
    (hll : item.latlong = some ll)
    (hsp : shouldProcess force item = true)
    (hns : ((item.gmaps.getD []).isEmpty && (item.name.getD unknownName).isEmpty) = false)
    (hg : get_coordinates nav 0 (item.gmaps.getD []) (item.name.getD unknownName) context mr d
        = (some (la, lo, src), idx1, tr))
    (hla : la.isEmpty = false) (hlo : lo.isEmpty = false)
    (hinvalid : (validate_coordinates la lo).1 = false)
    (hch : la ≠ currentLat item ∨ lo ≠ currentLong item) :
    (∀ c, processEntity force context mr d nav 0 item c =
      ⟨{ item with latlong := some { ll with lat := some la, long := some lo } },
       { c with validationWarnings := c.validationWarnings + 1, updated := c.updated + 1 },
       idx1, tr, true, none⟩) ∧
    runBatch force context mr d nav [(key, item)] =
      ⟨[(key, { item with latlong := some { ll with lat := some la, long := some lo } })],
       ⟨1, 0, 0, 1⟩,
       tr ++ [Ev.updateStore
                [(key, { item with latlong := some { ll with lat := some la, long := some lo } })],
             Ev.save
                [(key, { item with latlong := some { ll with lat := some la, long := some lo } })]],
       none⟩ := by
  have hw := validate_warnings_of_invalid hinvalid
  have hpe : ∀ c, processEntity force context mr d nav 0 item c =
      ⟨{ item with latlong := some { ll with lat := some la, long := some lo } },
       { c with validationWarnings := c.validationWarnings + 1, updated := c.updated + 1 },
       idx1, tr, true, none⟩ := by
    intro c
    simp [processEntity, hsp, hns, hg, hla, hlo, hw, hch, hll]
  refine ⟨hpe, ?_⟩
  simp [runBatch, runLoop, hpe ⟨0, 0, 0, 0⟩]

/-- Concrete instance of **C4**: the resolved pair (95, 200) is out of
range on both axes, yet the record is updated and the warning counter
bumped. -/
theorem validation_failure_witness :
    processEntity false none 1 5 (fun _ => NavResult.ok "https://m/!3d95!4d200".toList) 0
        ⟨some "X".toList, some "https://g.co/xy".toList, some ⟨some [], some []⟩⟩
        ⟨0, 0, 0, 0⟩ =
      ⟨⟨some "X".toList, some "https://g.co/xy".toList,
          some ⟨some "95".toList, some "200".toList⟩⟩,
        ⟨1, 0, 0, 1⟩, 1,
        [Ev.navigate "https://g.co/xy".toList, Ev.settle 4], true, none⟩ :=
  (validation_failure_does_not_block_update false none 1 5
      (fun _ => NavResult.ok "https://m/!3d95!4d200".toList) "k".toList
      ⟨some "X".toList, some "https://g.co/xy".toList, some ⟨some [], some []⟩⟩
      ⟨some [], some []⟩ "95".toList "200".toList Source.pin 1
      [Ev.navigate "https://g.co/xy".toList, Ev.settle 4]
      rfl (by decide) (by decide) (by decide) (by decide) (by decide) (by decide)
      (by decide)).1 ⟨0, 0, 0, 0⟩

/-- **C8**: an entity record lacking the `latlong` key whose resolution
succeeds (with truthy coordinates, which necessarily differ from the
empty current ones) raises `KeyError('latlong')` at the in-place update
`item['latlong']['lat'] = ...`; the error is not caught by the loop, so
the remaining entities are never processed — the loop result carries the
error, the events of this entity only, and the untouched store. -/
theorem missing_latlong_keyerror (force : Bool) (context : Option (List Char))
    (mr d : Nat) (nav : Nat → NavResult) (key : List Char) (item : EntityRec)
    (c : Counters) (la lo : List Char) (src : Source) (idx idx1 : Nat) (tr : List Ev)
    (rest done : List (List Char × EntityRec))
    (hll : item.latlong = none)
    (hns : ((item.gmaps.getD []).isEmpty && (item.name.getD unknownName).isEmpty) = false)
    (hg : get_coordinates nav idx (item.gmaps.getD []) (item.name.getD unknownName) context mr d
        = (some (la, lo, src), idx1, tr))
    (hla : la.isEmpty = false) (hlo : lo.isEmpty = false) :
    processEntity force context mr d nav idx item c =
      ⟨item,
       (if ¬(validate_coordinates la lo).2.isEmpty then
          { c with validationWarnings := c.validationWarnings + 1 } else c),
       idx1, tr, false, some (PyError.keyError latlongKey)⟩ ∧
    runLoop force context mr d nav ((key, item) :: rest) done idx c =
      ⟨done.reverse ++ (key, item) :: rest,
       (if ¬(validate_coordinates la lo).2.isEmpty then
          { c with validationWarnings := c.validationWarnings + 1 } else c),
       tr, some (PyError.keyError latlongKey)⟩ := by
  have hsp : shouldProcess force item = true := by
    simp [shouldProcess, currentLat, hll]
  have hlane : la ≠ currentLat item := by
    simp only [currentLat, hll]
    intro hnil
    rw [hnil] at hla
    simp at hla
  have hpe : processEntity force context mr d nav idx item c =
      ⟨item,
       (if ¬(validate_coordinates la lo).2.isEmpty then
          { c with validationWarnings := c.validationWarnings + 1 } else c),
       idx1, tr, false, some (PyError.keyError latlongKey)⟩ := by
    simp [processEntity, hsp, hns, hg, hla, hlo, hll, hlane]
  refine ⟨hpe, ?_⟩
  simp [runLoop, hpe]

/-- Concrete instance of **C8**: the resolution yields (9, 20), the
record has no `latlong` key, and the run aborts with
`KeyError('latlong')` before touching the store. -/
theorem missing_latlong_keyerror_witness :
    processEntity false none 1 5 (fun _ => NavResult.ok "https://m/!3d9!4d20".toList) 0
        ⟨some "X".toList, some "https://g.co/xy".toList, none⟩ ⟨0, 0, 0, 0⟩ =
      ⟨⟨some "X".toList, some "https://g.co/xy".toList, none⟩, ⟨0, 0, 0, 0⟩, 1,
        [Ev.navigate "https://g.co/xy".toList, Ev.settle 4], false,
        some (PyError.keyError latlongKey)⟩ ∧
    runLoop false none 1 5 (fun _ => NavResult.ok "https://m/!3d9!4d20".toList)
        [("k".toList, ⟨some "X".toList, some "https://g.co/xy".toList, none⟩)] [] 0
        ⟨0, 0, 0, 0⟩ =
      ⟨[("k".toList, ⟨some "X".toList, some "https://g.co/xy".toList, none⟩)],
       ⟨0, 0, 0, 0⟩,
       [Ev.navigate "https://g.co/xy".toList, Ev.settle 4],
       some (PyError.keyError latlongKey)⟩ := by
  have h := missing_latlong_keyerror false none 1 5
    (fun _ => NavResult.ok "https://m/!3d9!4d20".toList) "k".toList
    ⟨some "X".toList, some "https://g.co/xy".toList, none⟩ ⟨0, 0, 0, 0⟩
    "9".toList "20".toList Source.pin 0 1
    [Ev.navigate "https://g.co/xy".toList, Ev.settle 4] [] []
    rfl (by decide) (by decide) (by decide) (by decide)
  refine ⟨?_, ?_⟩
  · rw [h.1]
    decide
  · rw [h.2]
    decide

theorem urlAttemptLoop_all_err (nav : Nat → NavResult) (url : List Char) (d : Nat) :
    ∀ (r idx a : Nat), (∀ i, i < r → nav (idx + i) = NavResult.err) →
      urlAttemptLoop nav url d idx r a = (none, idx + r, errTrace url d r a)
  | 0, idx, a, _ => by simp [urlAttemptLoop, errTrace]
  | 1, idx, a, h => by
    have h0 : nav idx = NavResult.err := by simpa using h 0 (by omega)
    simp [urlAttemptLoop, errTrace, h0]
  | r + 2, idx, a, h => by
    have h0 : nav idx = NavResult.err := by simpa using h 0 (by omega)
    have ih := urlAttemptLoop_all_err nav url d (r + 1) (idx + 1) (a + 1)
      (fun i hi => by
        have hstep := h (i + 1) (by omega)
        have harr : idx + (i + 1) = idx + 1 + i := by omega
        rw [harr] at hstep
        exact hstep)
    have harith : idx + 1 + (r + 1) = idx + (r + 2) := by omega
    conv_lhs => rw [urlAttemptLoop]
    rw [h0]
    dsimp only
    rw [if_neg (Nat.succ_ne_zero r), ih, harith]
    rfl

theorem searchAttemptLoop_all_err (nav : Nat → NavResult) (url : List Char) (d : Nat) :
    ∀ (r idx a : Nat), (∀ i, i < r → nav (idx + i) = NavResult.err) →
      searchAttemptLoop nav url d idx r a = (none, idx + r, errTrace url d r a)
  | 0, idx, a, _ => by simp [searchAttemptLoop, errTrace]
  | 1, idx, a, h => by
    have h0 : nav idx = NavResult.err := by simpa using h 0 (by omega)
    simp [searchAttemptLoop, errTrace, h0]
  | r + 2, idx, a, h => by
    have h0 : nav idx = NavResult.err := by simpa using h 0 (by omega)
    have ih := searchAttemptLoop_all_err nav url d (r + 1) (idx + 1) (a + 1)
      (fun i hi => by
        have hstep := h (i + 1) (by omega)
        have harr : idx + (i + 1) = idx + 1 + i := by omega
        rw [harr] at hstep
        exact hstep)
    have harith : idx + 1 + (r + 1) = idx + (r + 2) := by omega
    conv_lhs => rw [searchAttemptLoop]
    rw [h0]
    dsimp only
    rw [if_neg (Nat.succ_ne_zero r), ih, harith]
    rfl

/-- **C5**: in each of the two resolution steps, a navigation error on
attempt `a` (0-based) is retried after an exponential backoff sleep of
`retry_delay * 2 ^ a`, for at most `max_retries` attempts in total (no
sleep after the last); when every attempt errors the step exhausts its
retries and falls through with no result (the `errTrace` of the loop is
exactly one navigation per attempt interleaved with those backoffs); and
an entity whose whole resolution returns nothing is merely counted
failed — the loop then continues with the remaining entities instead of
aborting the batch. -/
theorem retry_backoff_and_continue :
    (∀ (nav : Nat → NavResult) (url : List Char) (d r idx : Nat),
      (∀ i, i < r → nav (idx + i) = NavResult.err) →
      urlAttemptLoop nav url d idx r 0 = (none, idx + r, errTrace url d r 0)) ∧
    (∀ (nav : Nat → NavResult) (url : List Char) (d r idx : Nat),
      (∀ i, i < r → nav (idx + i) = NavResult.err) →
      searchAttemptLoop nav url d idx r 0 = (none, idx + r, errTrace url d r 0)) ∧
    (∀ (force : Bool) (context : Option (List Char)) (mr d : Nat) (nav : Nat → NavResult)
       (key : List Char) (item : EntityRec) (c : Counters) (idx idx1 : Nat) (tr : List Ev)
       (rest done : List (List Char × EntityRec)),
      shouldProcess force item = true →
      ((item.gmaps.getD []).isEmpty && (item.name.getD unknownName).isEmpty) = false →
      get_coordinates nav idx (item.gmaps.getD []) (item.name.getD unknownName) context mr d
        = (none, idx1, tr) →
      processEntity force context mr d nav idx item c =
        ⟨item, { c with failed := c.failed + 1 }, idx1, tr, false, none⟩ ∧
      runLoop force context mr d nav ((key, item) :: rest) done idx c =
        ⟨(runLoop force context mr d nav rest ((key, item) :: done) idx1
            { c with failed := c.failed + 1 }).store,
         (runLoop force context mr d nav rest ((key, item) :: done) idx1
            { c with failed := c.failed + 1 }).counters,
         tr ++ (runLoop force context mr d nav rest ((key, item) :: done) idx1
            { c with failed := c.failed + 1 }).events,
         (runLoop force context mr d nav rest ((key, item) :: done) idx1
            { c with failed := c.failed + 1 }).error⟩) := by
  refine ⟨fun nav url d r idx h => urlAttemptLoop_all_err nav url d r idx 0 h,
    fun nav url d r idx h => searchAttemptLoop_all_err nav url d r idx 0 h, ?_⟩
  intro force context mr d nav key item c idx idx1 tr rest done hsp hns hg
  have hpe : processEntity force context mr d nav idx item c =
      ⟨item, { c with failed := c.failed + 1 }, idx1, tr, false, none⟩ := by
    simp [processEntity, hsp, hns, hg]
  refine ⟨hpe, ?_⟩
  simp [runLoop, hpe]

/-- Concrete instance of **C5**: three erroring attempts produce the
trace navigate, backoff 5·2⁰, navigate, backoff 5·2¹, navigate, and the
step ends with no result having consumed exactly three navigations. -/
theorem retry_backoff_and_continue_witness :
    urlAttemptLoop (fun _ => NavResult.err) "u".toList 5 0 3 0 =
      (none, 3, [Ev.navigate "u".toList, Ev.backoff 5, Ev.navigate "u".toList,
        Ev.backoff 10, Ev.navigate "u".toList]) := by
  have h := retry_backoff_and_continue.1 (fun _ => NavResult.err) "u".toList 5 3 0
    (fun i _ => rfl)
  rw [h]
  decide

/-- **C6**: in the direct-URL step, when the first navigation lands on a
page whose URL contains the soft-block marker `google.com/sorry`, the
step yields no result and its retry loop stops after that single attempt
however many retries remain; `get_coordinates` then proceeds directly to
the search fallback. -/
theorem captcha_stops_url_retries (nav : Nat → NavResult) (f url gmaps_url name : List Char)
    (context : Option (List Char)) (d idx r a : Nat)
    (hnav : nav idx = NavResult.ok f) (hblock : containsSub blockMarker f = true) :
    urlAttemptLoop nav url d idx (r + 1) a =
      (none, idx + 1, [Ev.navigate url, Ev.settle 4]) ∧
    (gmaps_url ≠ [] ∧ 5 < gmaps_url.length →
      get_coordinates nav idx gmaps_url name context (r + 1) d =
        ((searchAttemptLoop nav (searchUrlOf name context) d (idx + 1) (r + 1) 0).1,
         (searchAttemptLoop nav (searchUrlOf name context) d (idx + 1) (r + 1) 0).2.1,
         [Ev.navigate (stripTrailingDot gmaps_url), Ev.settle 4] ++
           (searchAttemptLoop nav (searchUrlOf name context) d (idx + 1) (r + 1) 0).2.2)) := by
  have hloop : ∀ (u : List Char) (a1 : Nat), urlAttemptLoop nav u d idx (r + 1) a1 =
      (none, idx + 1, [Ev.navigate u, Ev.settle 4]) := by
    intro u a1
    simp [urlAttemptLoop, hnav, hblock]
  refine ⟨hloop url a, fun hg => ?_⟩
  simp [get_coordinates, hg, hloop (stripTrailingDot gmaps_url) 0]

/-- Concrete instance of **C6**: a soft-block answer on the first attempt
ends the URL step immediately even though two retries remain. -/
theorem captcha_stops_url_retries_witness :
    urlAttemptLoop (fun _ => NavResult.ok "https://www.google.com/sorry/x".toList)
        "u".toList 5 0 3 0 = (none, 1, [Ev.navigate "u".toList, Ev.settle 4]) :=
  (captcha_stops_url_retries (fun _ => NavResult.ok "https://www.google.com/sorry/x".toList)
    "https://www.google.com/sorry/x".toList "u".toList "g".toList "n".toList none 5 0 2 0
    rfl (by decide)).1

theorem navOnly_append : ∀ (a b : List Ev), navOnly a = true → navOnly b = true →
    navOnly (a ++ b) = true
  | [], _, _, hb => hb
  | Ev.navigate _ :: a, b, ha, hb => navOnly_append a b ha hb
  | Ev.settle _ :: a, b, ha, hb => navOnly_append a b ha hb
  | Ev.backoff _ :: a, b, ha, hb => navOnly_append a b ha hb
  | Ev.updateStore _ :: a, b, ha, hb => by simp [navOnly] at ha
  | Ev.save _ :: a, b, ha, hb => by simp [navOnly] at ha

theorem urlAttemptLoop_navOnly (nav : Nat → NavResult) (url : List Char) (d : Nat) :
    ∀ (r idx a : Nat), navOnly (urlAttemptLoop nav url d idx r a).2.2 = true
  | 0, _, _ => rfl
  | r + 1, idx, a => by
    rw [urlAttemptLoop]
    rcases nav idx with f | _
    · by_cases hb : containsSub blockMarker f = true
      · simp [hb, navOnly]
      · rcases he : extract_coordinates_from_url f with _ | res <;> simp [hb, he, navOnly]
    · by_cases hr : r = 0
      · simp [hr, navOnly]
      · simp [hr, navOnly, urlAttemptLoop_navOnly nav url d r (idx + 1) (a + 1)]

theorem searchAttemptLoop_navOnly (nav : Nat → NavResult) (url : List Char) (d : Nat) :
    ∀ (r idx a : Nat), navOnly (searchAttemptLoop nav url d idx r a).2.2 = true
  | 0, _, _ => rfl
  | r + 1, idx, a => by
    rw [searchAttemptLoop]
    rcases nav idx with f | _
    · rcases he : extract_coordinates_from_url f with _ | res <;> simp [he, navOnly]
    · by_cases hr : r = 0
      · simp [hr, navOnly]
      · simp [hr, navOnly, searchAttemptLoop_navOnly nav url d r (idx + 1) (a + 1)]

theorem get_coordinates_navOnly (nav : Nat → NavResult) (idx : Nat)
    (gmaps_url name : List Char) (context : Option (List Char)) (mr d : Nat) :
    navOnly (get_coordinates nav idx gmaps_url name context mr d).2.2 = true := by
  unfold get_coordinates
  by_cases hc : gmaps_url ≠ [] ∧ 5 < gmaps_url.length
  · rw [if_pos hc]
    rcases hu : urlAttemptLoop nav (stripTrailingDot gmaps_url) d idx mr 0
      with ⟨res, idx1, tr1⟩
    have h1 : navOnly tr1 = true := by
      have h2 := urlAttemptLoop_navOnly nav (stripTrailingDot gmaps_url) d mr idx 0
      rw [hu] at h2
      exact h2
    rcases res with _ | r
    · dsimp only
      exact navOnly_append _ _ h1 (searchAttemptLoop_navOnly nav _ d mr idx1 0)
    · exact h1
  · rw [if_neg hc]
    dsimp only
    exact navOnly_append _ _ rfl (searchAttemptLoop_navOnly nav _ d mr idx 0)

theorem processEntity_counters (force : Bool) (context : Option (List Char)) (mr d : Nat)
    (nav : Nat → NavResult) (idx : Nat) (item : EntityRec) (c : Counters) :
    navOnly (processEntity force context mr d nav idx item c).events = true ∧
    (processEntity force context mr d nav idx item c).counters.updated =
      (if (processEntity force context mr d nav idx item c).didUpdate = true
        then c.updated + 1 else c.updated) ∧
    ((processEntity force context mr d nav idx item c).error ≠ none →
      (processEntity force context mr d nav idx item c).didUpdate = false) := by
  have hnav := get_coordinates_navOnly nav idx (item.gmaps.getD [])
    (item.name.getD unknownName) context mr d
  unfold processEntity
  dsimp only
  split
  · split
    · simp [navOnly]
    · split
      · split
        · simp [hnav, navOnly]
        · split
          · split
            · simp [hnav, navOnly, apply_ite]
            · simp [hnav, navOnly, apply_ite]
          · simp [hnav, navOnly, apply_ite]
      · simp [hnav, navOnly]
  · simp [navOnly]

theorem savesEvery5_navOnly : ∀ (a : List Ev), navOnly a = true →
    ∀ (n : Nat) (rest : List Ev), savesEvery5 n (a ++ rest) = savesEvery5 n rest
  | [], _, _, _ => rfl
  | Ev.navigate _ :: a, h, n, rest => savesEvery5_navOnly a h n rest
  | Ev.settle _ :: a, h, n, rest => savesEvery5_navOnly a h n rest
  | Ev.backoff _ :: a, h, n, rest => savesEvery5_navOnly a h n rest
  | Ev.updateStore _ :: a, h, n, rest => by simp [navOnly] at h
  | Ev.save _ :: a, h, n, rest => by simp [navOnly] at h

theorem runLoop_saves (force : Bool) (context : Option (List Char)) (mr d : Nat)
    (nav : Nat → NavResult) :
    ∀ (pending done : List (List Char × EntityRec)) (idx : Nat) (c : Counters)
      (suffix : List Ev),
      savesEvery5 (runLoop force context mr d nav pending done idx c).counters.updated
          suffix = true →
      savesEvery5 c.updated
          ((runLoop force context mr d nav pending done idx c).events ++ suffix) = true
  | [], done, idx, c, suffix, h => by simpa [runLoop] using h
  | (key, item) :: rest, done, idx, c, suffix, h => by
    obtain ⟨hnav, hupd, herr⟩ := processEntity_counters force context mr d nav idx item c
    rw [runLoop] at h ⊢
    dsimp only at h ⊢
    rcases he : (processEntity force context mr d nav idx item c).error with _ | e
    · rw [he] at h
      dsimp only at h ⊢
      rw [List.append_assoc, List.append_assoc,
        savesEvery5_navOnly (processEntity force context mr d nav idx item c).events hnav]
      have ih := runLoop_saves force context mr d nav rest
        ((key, (processEntity force context mr d nav idx item c).item) :: done)
        (processEntity force context mr d nav idx item c).idx
        (processEntity force context mr d nav idx item c).counters suffix h
      rcases hdu : (processEntity force context mr d nav idx item c).didUpdate with _ | _
      · rw [hdu] at hupd
        simp at hupd
        rw [hupd] at ih
        simpa using ih
      · rw [hdu] at hupd
        simp at hupd
        rw [hupd] at ih
        rw [hupd]
        simp only [eq_self_iff_true, if_true, List.cons_append]
        by_cases hm : (c.updated + 1) % 5 = 0
        · rw [if_pos hm]
          simp only [List.cons_append, List.nil_append]
          rw [savesEvery5, if_pos hm]
          simp [headIsSave, savesEvery5, ih]
        · rw [if_neg hm]
          simp only [List.nil_append]
          rw [savesEvery5, if_neg hm]
          simpa using ih
    · rw [he] at h
      dsimp only at h ⊢
      rw [savesEvery5_navOnly (processEntity force context mr d nav idx item c).events hnav]
      have hdf : (processEntity force context mr d nav idx item c).didUpdate = false :=
        herr (by rw [he]; simp)
      rw [hdf] at hupd
      simp at hupd
      rw [← hupd]
      exact h

/-- **C7**: in every run of the batch driver, each in-place update that
brings the updated count to a multiple of 5 is followed immediately —
before any further navigation or update, hence before the next entity is
processed — by a `save_to_json` of the entire in-memory store as it then
stands (the trailing always-performed final save is also part of the
trace); in particular after exactly 5 updates the store is on disk before
the 6th update happens. -/
theorem periodic_save_every_five (force : Bool) (context : Option (List Char))
    (mr d : Nat) (nav : Nat → NavResult) (data : List (List Char × EntityRec)) :
    savesEvery5 0 (runBatch force context mr d nav data).events = true := by
  unfold runBatch
  dsimp only
  exact runLoop_saves force context mr d nav data [] 0 ⟨0, 0, 0, 0⟩
    [Ev.save (runLoop force context mr d nav data [] 0 ⟨0, 0, 0, 0⟩).store] rfl
